import Mathlib

/-!
# Verification of the dithering-g demo page core logic

Shallow embedding of the bespoke logic of the repository:

* the Glitch Animator of `DemoName` in `src/App.tsx` (a timer-driven
  opacity sequence: 2000 ms warm-up, bursts through a fixed step list at a
  fixed inter-step interval, then a randomized idle wait, repeating),
* the responsive model-scale handler (`handleResize` in `src/App.tsx`),
* the background-color renderer effect (`setClearColor` wiring),
* the `Helmet` component's first-mesh selection and missing-mesh handling.

Time is simulated: rationals for clock values, an explicit pending-timer
queue, and a fuel-indexed `advanceTo` that fires due timers in order.
Randomness is an injected stream `rand : Nat → ℚ` of values in `[0,1)`,
mirroring successive calls to `Math.random()`.
-/

namespace DitheringG

/-- Animator configuration.  The source hard-codes the reference values
(`glitchSteps = [0.6, 0.2, 0.8, 0.4, 1]`, `stepInterval = 75`,
pause range `[1500, 2500)`, warm-up `2000`); the embedding keeps them as
parameters so that statements quantify over configured step lists, with
`referenceConfig` holding the literals of `src/App.tsx`. -/
structure Config where
  glitchSteps : List ℚ
  stepInterval : ℚ
  minPause : ℚ
  maxPause : ℚ
  warmup : ℚ
deriving DecidableEq

/-- The constants hard-coded in `src/App.tsx` lines 22, 23, 36, 45. -/
def referenceConfig : Config :=
  { glitchSteps := [6/10, 2/10, 8/10, 4/10, 1]
    stepInterval := 75
    minPause := 1500
    maxPause := 2500
    warmup := 2000 }

/-- `Math.random() * (maxPause - minPause) + minPause`
(line 36 of `src/App.tsx`, with the reference range 1500–2500). -/
def randomLoopInterval (cfg : Config) (r : ℚ) : ℚ :=
  r * (cfg.maxPause - cfg.minPause) + cfg.minPause

/-- The two continuations ever passed to `setTimeout` by the animator:
`animateNextStep` and `runFullGlitchSequence`. -/
inductive Cont where
  | runFull
  | animate
deriving DecidableEq

/-- A pending `setTimeout`: absolute fire time and continuation. -/
structure Timer where
  fireAt : ℚ
  cont : Cont
deriving DecidableEq

/-- State of the `DemoName` component and its scheduler:
current simulated time, `currentStepInSequence`, the `iconOpacity` React
state, the history of opacities passed to `setIconOpacity` (oldest first),
the queue of pending timers, and how many `Math.random()` draws happened. -/
structure AnimState where
  now : ℚ
  currentStepInSequence : Nat
  iconOpacity : ℚ
  history : List ℚ
  pending : List Timer
  randIdx : Nat
deriving DecidableEq

attribute [ext] AnimState

/-- Component state at mount: opacity 0 (`useState(0)`), nothing emitted,
no timer pending. -/
def initState : AnimState :=
  { now := 0
    currentStepInSequence := 0
    iconOpacity := 0
    history := []
    pending := []
    randIdx := 0 }

/-- Body of `animateNextStep` (lines 29–39 of `src/App.tsx`): if steps
remain, emit the current step, advance the index and schedule itself after
`stepInterval`; otherwise schedule `runFullGlitchSequence` after a
randomized pause. -/
def animateNextStep (cfg : Config) (rand : Nat → ℚ) (s : AnimState) : AnimState :=
  if h : s.currentStepInSequence < cfg.glitchSteps.length then
    let v := cfg.glitchSteps.get ⟨s.currentStepInSequence, h⟩
    { s with
      iconOpacity := v
      history := s.history ++ [v]
      currentStepInSequence := s.currentStepInSequence + 1
      pending := s.pending ++ [⟨s.now + cfg.stepInterval, Cont.animate⟩] }
  else
    { s with
      pending := s.pending ++
        [⟨s.now + randomLoopInterval cfg (rand s.randIdx), Cont.runFull⟩]
      randIdx := s.randIdx + 1 }

/-- `runFullGlitchSequence` (lines 25–41): reset the step index and run
`animateNextStep` synchronously. -/
def runFullGlitchSequence (cfg : Config) (rand : Nat → ℚ) (s : AnimState) : AnimState :=
  animateNextStep cfg rand { s with currentStepInSequence := 0 }

/-- Dispatch a fired timer's continuation. -/
def runCont (cfg : Config) (rand : Nat → ℚ) : Cont → AnimState → AnimState
  | Cont.runFull => runFullGlitchSequence cfg rand
  | Cont.animate => animateNextStep cfg rand

/-- `start()`: the mount effect schedules `runFullGlitchSequence` after the
warm-up delay (line 20, `setTimeout(..., 2000)`). -/
def start (cfg : Config) (s : AnimState) : AnimState :=
  { s with pending := s.pending ++ [⟨s.now + cfg.warmup, Cont.runFull⟩] }

/-- `stop()`: the unmount cleanup (lines 47–52) clears the warm-up timeout
and, when set, the glitch timeout — every pending timer is cancelled. -/
def stop (s : AnimState) : AnimState :=
  { s with pending := [] }

/-- Fire the next pending timer (the queue holds at most one): move the
clock to its fire time, remove it, run its continuation.  No-op when
nothing is pending. -/
def fireNext (cfg : Config) (rand : Nat → ℚ) (s : AnimState) : AnimState :=
  match s.pending with
  | [] => s
  | t :: rest => runCont cfg rand t.cont { s with now := t.fireAt, pending := rest }

/-- Advance simulated time to `target`: repeatedly fire the pending timer
while it is due (`fireAt ≤ target`), then set the clock to `target`.
`fuel` bounds the number of fired timers; every statement below supplies
enough. -/
def advanceTo (cfg : Config) (rand : Nat → ℚ) : Nat → ℚ → AnimState → AnimState
  | 0, target, s => { s with now := target }
  | fuel + 1, target, s =>
    match s.pending with
    | [] => { s with now := target }
    | t :: _ =>
      if t.fireAt ≤ target then
        advanceTo cfg rand fuel target (fireNext cfg rand s)
      else
        { s with now := target }

/-! ## Responsive Scale Controller (`handleResize`, lines 132–135) -/

/-- `handleResize`: `window.innerWidth <= 768 ? 2.08 : 2.6`. -/
def handleResize (w : ℚ) : ℚ :=
  if w ≤ 768 then 208/100 else 26/10

/-- Initial `modelScale` React state (`useState(2.6)`, line 106). -/
def initialModelScale : ℚ := 26/10

/-- The `modelScale` state after mount: starts at `initialModelScale`, the
mount effect runs `handleResize` once at width `w0` (line 140), then each
resize event recomputes it (line 143). -/
def modelScaleAfter (events : List ℚ) (w0 : ℚ) : ℚ :=
  (w0 :: events).foldl (fun _ w => handleResize w) initialModelScale

/-! ## Background color (`setClearColor` wiring, lines 125–129, 159–162) -/

/-- A color value as configured in the control panel. -/
structure Color where
  value : String
deriving DecidableEq

/-- The renderer state the effect writes to. -/
structure Renderer where
  clearColor : Color
deriving DecidableEq

/-- `gl.setClearColor(new THREE.Color(c))`. -/
def setClearColor (r : Renderer) (c : Color) : Renderer :=
  { r with clearColor := c }

/-- The `[bgColor]` effect re-runs `setClearColor` on every change of the
background color configuration; a change sequence is applied in order. -/
def applyBgChanges (r : Renderer) (cs : List Color) : Renderer :=
  cs.foldl setClearColor r

/-! ## Asset Provider / `Helmet` (`src/unnamed/part_000`) -/

/-- A mesh extracted from the GLTF asset. -/
structure Mesh where
  id : Nat
deriving DecidableEq

/-- A node of the loaded GLTF: either a `THREE.Mesh` or something else. -/
inductive GLTFNode where
  | mesh (m : Mesh)
  | other
deriving DecidableEq

/-- `nodes[nodeName] instanceof THREE.Mesh`. -/
def GLTFNode.isMesh : GLTFNode → Bool
  | GLTFNode.mesh _ => true
  | GLTFNode.other => false

/-- The `for (const nodeName in nodes)` loop of `Helmet`: the first node
that is a mesh, if any. -/
def findFirstMesh : List (String × GLTFNode) → Option Mesh
  | [] => none
  | (_, GLTFNode.mesh m) :: _ => some m
  | (_, GLTFNode.other) :: rest => findFirstMesh rest

/-- What `Helmet` renders: nothing plus a `console.warn` diagnostic when no
mesh is found, otherwise the first mesh. -/
inductive RenderResult where
  | nothing (diagnostic : String)
  | rendered (m : Mesh)
deriving DecidableEq

/-- The `Helmet` component body as a total function of the loaded nodes
(totality models "never crashes"). -/
def Helmet (nodes : List (String × GLTFNode)) : RenderResult :=
  match findFirstMesh nodes with
  | none => RenderResult.nothing "No mesh found in elegant_g.glb"
  | some m => RenderResult.rendered m

/-! ## Lifecycle actions (for the single-pending-timer invariant) -/

/-- An external interaction with the mounted animator: advancing simulated
time, firing the next due timer, or the unmount cleanup. -/
inductive Act where
  | fire
  | adv (fuel : Nat) (t : ℚ)
  | halt
deriving DecidableEq

/-- Interpret one action on the animator state. -/
def applyAct (cfg : Config) (rand : Nat → ℚ) : Act → AnimState → AnimState
  | Act.fire => fireNext cfg rand
  | Act.adv fuel t => advanceTo cfg rand fuel t
  | Act.halt => stop

/-- Run a sequence of actions in order. -/
def runActs (cfg : Config) (rand : Nat → ℚ) (acts : List Act) (s : AnimState) : AnimState :=
  acts.foldl (fun s a => applyAct cfg rand a s) s

/-- The animator state reached after the warm-up fire followed by `j`
burst-step fires (for `j < glitchSteps.length`): steps `0..j` have been
emitted, and the next `animateNextStep` is pending one interval later. -/
def burstState (cfg : Config) (j : Nat) : AnimState :=
  { now := cfg.warmup + (j : ℚ) * cfg.stepInterval
    currentStepInSequence := j + 1
    iconOpacity := cfg.glitchSteps.getD j 0
    history := cfg.glitchSteps.take (j + 1)
    pending := [⟨cfg.warmup + ((j : ℚ) + 1) * cfg.stepInterval, Cont.animate⟩]
    randIdx := 0 }

/-! ## Helper lemmas -/

lemma take_append_get (l : List ℚ) (i : Nat) (h : i < l.length) :
    l.take i ++ [l.get ⟨i, h⟩] = l.take (i + 1) := by
  have h2 := List.take_concat_get l i h
  rw [List.concat_eq_append] at h2
  exact h2

lemma getD_eq_get (l : List ℚ) (i : Nat) (h : i < l.length) :
    l.getD i 0 = l.get ⟨i, h⟩ := by
  simp [List.getD_eq_getElem, h]

/-- The scheduled idle wait always lands in `[minPause, maxPause)`. -/
lemma randomLoopInterval_mem (cfg : Config) (r : ℚ)
    (h0 : 0 ≤ r) (h1 : r < 1) (hp : cfg.minPause < cfg.maxPause) :
    cfg.minPause ≤ randomLoopInterval cfg r ∧ randomLoopInterval cfg r < cfg.maxPause := by
  unfold randomLoopInterval
  constructor
  · nlinarith
  · nlinarith

lemma handleResize_mem (w : ℚ) :
    handleResize w = 208/100 ∨ handleResize w = 26/10 := by
  unfold handleResize
  by_cases h : w ≤ 768 <;> simp [h]

lemma foldl_handleResize_mem (l : List ℚ) (init : ℚ)
    (h : init = 208/100 ∨ init = 26/10) :
    l.foldl (fun _ w => handleResize w) init = 208/100 ∨
      l.foldl (fun _ w => handleResize w) init = 26/10 := by
  induction l generalizing init with
  | nil => simpa using h
  | cons a l ih => simpa using ih (handleResize a) (handleResize_mem a)

lemma findFirstMesh_eq_none (l : List (String × GLTFNode))
    (h : ∀ p ∈ l, p.2.isMesh = false) :
    findFirstMesh l = none := by
  induction l with
  | nil => rfl
  | cons p l ih =>
    obtain ⟨nm, node⟩ := p
    cases node with
    | mesh m => simpa [GLTFNode.isMesh] using h (nm, GLTFNode.mesh m) (by simp)
    | other =>
      simp only [findFirstMesh]
      exact ih fun q hq => h q (by simp [hq])

lemma findFirstMesh_append_mesh (pre rest : List (String × GLTFNode))
    (nm : String) (m : Mesh)
    (hpre : ∀ p ∈ pre, p.2.isMesh = false) :
    findFirstMesh (pre ++ (nm, GLTFNode.mesh m) :: rest) = some m := by
  induction pre with
  | nil => rfl
  | cons p pre ih =>
    obtain ⟨nm2, node⟩ := p
    cases node with
    | mesh m2 => simpa [GLTFNode.isMesh] using hpre (nm2, GLTFNode.mesh m2) (by simp)
    | other =>
      simp only [List.cons_append, findFirstMesh]
      exact ih fun q hq => hpre q (by simp [hq])

/-- Firing the warm-up timer runs `runFullGlitchSequence`, which emits the
first step synchronously and schedules the next step. -/
lemma fireNext_start (cfg : Config) (rand : Nat → ℚ)
    (hn : 0 < cfg.glitchSteps.length) :
    fireNext cfg rand (start cfg initState) = burstState cfg 0 := by
  simp only [fireNext, start, initState, List.nil_append]
  simp only [runCont, runFullGlitchSequence, animateNextStep]
  rw [dif_pos hn, burstState]
  have h2 := take_append_get cfg.glitchSteps 0 hn
  simp at h2
  simp [List.getElem?_eq_getElem, hn, h2]

/-- Firing a mid-burst step timer emits the next step and schedules the
following one. -/
lemma fireNext_burstState (cfg : Config) (rand : Nat → ℚ) (j : Nat)
    (hj : j + 1 < cfg.glitchSteps.length) :
    fireNext cfg rand (burstState cfg j) = burstState cfg (j + 1) := by
  simp only [fireNext, burstState, runCont, animateNextStep]
  rw [dif_pos hj]
  have e1 : cfg.warmup + ((j : ℚ) + 1) * cfg.stepInterval + cfg.stepInterval
      = cfg.warmup + (((j : ℚ) + 1) + 1) * cfg.stepInterval := by ring
  simp [List.getElem?_eq_getElem, hj, take_append_get _ _ hj, e1, Nat.cast_add, Nat.cast_one]

/-- One unfolding of `advanceTo`: the single pending timer is due, so it
fires and the advance continues. -/
lemma advanceTo_fire (cfg : Config) (rand : Nat → ℚ) (fuel : Nat) (target : ℚ)
    (s : AnimState) (t : Timer) (hp : s.pending = [t]) (hdue : t.fireAt ≤ target) :
    advanceTo cfg rand (fuel + 1) target s
      = advanceTo cfg rand fuel target (fireNext cfg rand s) := by
  rw [advanceTo, hp]
  simp [hdue]

/-- One unfolding of `advanceTo`: the single pending timer is not yet due,
so the clock just moves to the target. -/
lemma advanceTo_stop (cfg : Config) (rand : Nat → ℚ) (fuel : Nat) (target : ℚ)
    (s : AnimState) (t : Timer) (hp : s.pending = [t]) (hnot : ¬ t.fireAt ≤ target) :
    advanceTo cfg rand (fuel + 1) target s = { s with now := target } := by
  rw [advanceTo, hp]
  simp [hnot]

/-- Advancing the clock to the time of burst step `k` fires every due step
timer in order and ends in the state of step `k`. -/
lemma advanceTo_burstState (cfg : Config) (rand : Nat → ℚ)
    (hd : 0 < cfg.stepInterval) (k : Nat) (hk : k < cfg.glitchSteps.length) :
    ∀ m j, j + m = k →
      advanceTo cfg rand (m + 1) (cfg.warmup + (k : ℚ) * cfg.stepInterval) (burstState cfg j)
        = burstState cfg k := by
  intro m
  induction m with
  | zero =>
    intro j hj
    have hjk : j = k := by omega
    subst hjk
    have hnot : ¬ ((⟨cfg.warmup + ((j : ℚ) + 1) * cfg.stepInterval, Cont.animate⟩ : Timer).fireAt
        ≤ cfg.warmup + (j : ℚ) * cfg.stepInterval) := by
      simp only [Timer.fireAt]
      nlinarith
    rw [advanceTo_stop cfg rand 0 _ _ _ rfl hnot]
    simp [burstState]
  | succ m ih =>
    intro j hj
    have hj1 : ((j : ℚ) + 1) ≤ (k : ℚ) := by exact_mod_cast Nat.succ_le_of_lt (by omega)
    have hdue : ((⟨cfg.warmup + ((j : ℚ) + 1) * cfg.stepInterval, Cont.animate⟩ : Timer).fireAt
        ≤ cfg.warmup + (k : ℚ) * cfg.stepInterval) := by
      simp only [Timer.fireAt]
      nlinarith
    rw [advanceTo_fire cfg rand (m + 1) _ _ _ rfl hdue]
    rw [fireNext_burstState cfg rand j (by omega)]
    exact ih (j + 1) (by omega)

/-! ## Claim theorems -/

/-- C1: for every configured step list `S` and positive inter-step delay
`d`, after `start()` and advancing simulated time to the warm-up instant
plus `k*d` (for any `0 ≤ k < S.length`), the emitted-opacity history is
exactly `S[0..k]`, i.e. the first `k+1` steps strictly in list order. -/
theorem glitch_history_matches_steps (cfg : Config) (rand : Nat → ℚ) (k : Nat)
    (hk : k < cfg.glitchSteps.length) (hd : 0 < cfg.stepInterval) :
    (advanceTo cfg rand (k + 2) (cfg.warmup + (k : ℚ) * cfg.stepInterval)
        (start cfg initState)).history
      = cfg.glitchSteps.take (k + 1) := by
  have hdue : ((⟨(0:ℚ) + cfg.warmup, Cont.runFull⟩ : Timer).fireAt
      ≤ cfg.warmup + (k : ℚ) * cfg.stepInterval) := by
    simp only [Timer.fireAt]
    have hkd : (0:ℚ) ≤ (k : ℚ) * cfg.stepInterval :=
      mul_nonneg (by positivity) hd.le
    linarith
  have hp : (start cfg initState).pending = [⟨(0:ℚ) + cfg.warmup, Cont.runFull⟩] := rfl
  rw [show k + 2 = (k + 1) + 1 from rfl,
    advanceTo_fire cfg rand (k + 1) _ _ _ hp hdue,
    fireNext_start cfg rand (by omega),
    advanceTo_burstState cfg rand hd k hk k 0 (by omega)]
  simp [burstState]

/-- Witness for C1: reference configuration, `k = 4`, pinned random
stream; history after the warm-up plus four step intervals is the whole
reference step list. -/
theorem glitch_history_matches_steps_witness :
    4 < referenceConfig.glitchSteps.length ∧ (0:ℚ) < referenceConfig.stepInterval ∧
    (advanceTo referenceConfig (fun _ => 0) (4 + 2)
        (referenceConfig.warmup + ((4:ℕ) : ℚ) * referenceConfig.stepInterval)
        (start referenceConfig initState)).history
      = referenceConfig.glitchSteps.take (4 + 1) :=
  ⟨by norm_num [referenceConfig], by norm_num [referenceConfig],
    glitch_history_matches_steps referenceConfig (fun _ => 0) 4
      (by norm_num [referenceConfig]) (by norm_num [referenceConfig])⟩

/-- C2: after `stop()` (the unmount cleanup), advancing simulated time by
any amount fires nothing: apart from the clock the state is unchanged — no
opacity emission, no state change, no pending timer — whatever kind of
timer was pending; and `stop` is safe (idempotent) with nothing pending. -/
theorem stop_cancels_all (cfg : Config) (rand : Nat → ℚ) (s : AnimState)
    (fuel : Nat) (t : ℚ) :
    advanceTo cfg rand fuel t (stop s) = { stop s with now := t } ∧
    (advanceTo cfg rand fuel t (stop s)).history = s.history ∧
    (advanceTo cfg rand fuel t (stop s)).iconOpacity = s.iconOpacity ∧
    (advanceTo cfg rand fuel t (stop s)).currentStepInSequence
      = s.currentStepInSequence ∧
    (advanceTo cfg rand fuel t (stop s)).pending = [] ∧
    stop (stop s) = stop s := by
  have h : advanceTo cfg rand fuel t (stop s) = { stop s with now := t } := by
    cases fuel <;> simp [advanceTo, stop]
  refine ⟨h, ?_, ?_, ?_, ?_, rfl⟩ <;> (rw [h]; simp [stop])

/-- C6: `start()` emits nothing before the warm-up delay elapses (opacity
stays 0 and the history stays empty at any earlier time), the warm-up fire
itself emits step index 0 of the burst, and the reference warm-up delay is
2000 ms. -/
theorem warmup_gates_first_emission (cfg : Config) (rand : Nat → ℚ)
    (fuel : Nat) (t : ℚ) (ht : t < cfg.warmup) (hn : 0 < cfg.glitchSteps.length) :
    (advanceTo cfg rand fuel t (start cfg initState)).history = [] ∧
    (advanceTo cfg rand fuel t (start cfg initState)).iconOpacity = 0 ∧
    (fireNext cfg rand (start cfg initState)).history = [cfg.glitchSteps.getD 0 0] ∧
    (fireNext cfg rand (start cfg initState)).iconOpacity = cfg.glitchSteps.getD 0 0 ∧
    (fireNext cfg rand (start cfg initState)).now = cfg.warmup ∧
    (fireNext cfg rand (start cfg initState)).currentStepInSequence = 1 ∧
    referenceConfig.warmup = 2000 := by
  have hnot : ¬ ((⟨(0:ℚ) + cfg.warmup, Cont.runFull⟩ : Timer).fireAt ≤ t) := by
    simp only [Timer.fireAt]
    linarith
  have h : advanceTo cfg rand fuel t (start cfg initState)
      = { start cfg initState with now := t } := by
    cases fuel with
    | zero => rfl
    | succ fuel => exact advanceTo_stop cfg rand fuel t _ _ rfl hnot
  have hfire := fireNext_start cfg rand hn
  have h2 := take_append_get cfg.glitchSteps 0 hn
  simp at h2
  refine ⟨by rw [h]; rfl, by rw [h]; rfl, ?_, ?_, ?_, ?_, rfl⟩ <;>
    simp [hfire, burstState, List.getElem?_eq_getElem, hn, ← h2]

/-- Witness for C6: reference configuration, advancing to 1999 ms. -/
theorem warmup_gates_first_emission_witness :
    (1999:ℚ) < referenceConfig.warmup ∧ 0 < referenceConfig.glitchSteps.length ∧
    ((advanceTo referenceConfig (fun _ => 0) 3 1999 (start referenceConfig initState)).history = [] ∧
    (advanceTo referenceConfig (fun _ => 0) 3 1999 (start referenceConfig initState)).iconOpacity = 0 ∧
    (fireNext referenceConfig (fun _ => 0) (start referenceConfig initState)).history
      = [referenceConfig.glitchSteps.getD 0 0] ∧
    (fireNext referenceConfig (fun _ => 0) (start referenceConfig initState)).iconOpacity
      = referenceConfig.glitchSteps.getD 0 0 ∧
    (fireNext referenceConfig (fun _ => 0) (start referenceConfig initState)).now
      = referenceConfig.warmup ∧
    (fireNext referenceConfig (fun _ => 0) (start referenceConfig initState)).currentStepInSequence = 1 ∧
    referenceConfig.warmup = 2000) :=
  ⟨by norm_num [referenceConfig], by norm_num [referenceConfig],
    warmup_gates_first_emission referenceConfig (fun _ => 0) 3 1999
      (by norm_num [referenceConfig]) (by norm_num [referenceConfig])⟩

/-- The end-of-burst fire: step index has reached the end of the list, so
nothing is emitted and a single idle wait is scheduled. -/
lemma fireNext_endOfBurst (cfg : Config) (rand : Nat → ℚ) (s : AnimState) (t : ℚ)
    (hstep : s.currentStepInSequence = cfg.glitchSteps.length)
    (hpend : s.pending = [⟨t, Cont.animate⟩]) :
    fireNext cfg rand s
      = { s with
          now := t
          pending := [⟨t + randomLoopInterval cfg (rand s.randIdx), Cont.runFull⟩]
          randIdx := s.randIdx + 1 } := by
  simp only [fireNext, hpend]
  simp only [runCont, animateNextStep]
  rw [dif_neg (by simp [hstep])]
  simp

/-- C3: at the end of a burst (all `n` steps emitted, one `animate` timer
pending), the next fire emits nothing and schedules exactly one idle wait
whose duration lies in `[minPause, maxPause)`; the fire after that idle
wait emits `S[0]` again at step index 1, restarting the cycle in the same
shape — so bursts repeat indefinitely with exactly one idle wait between
consecutive bursts. -/
theorem burst_restart (cfg : Config) (rand : Nat → ℚ) (s : AnimState) (t : ℚ)
    (hstep : s.currentStepInSequence = cfg.glitchSteps.length)
    (hpend : s.pending = [⟨t, Cont.animate⟩])
    (hn : 0 < cfg.glitchSteps.length)
    (h0 : 0 ≤ rand s.randIdx) (h1 : rand s.randIdx < 1)
    (hp : cfg.minPause < cfg.maxPause) :
    (fireNext cfg rand s).history = s.history ∧
    cfg.minPause ≤ randomLoopInterval cfg (rand s.randIdx) ∧
    randomLoopInterval cfg (rand s.randIdx) < cfg.maxPause ∧
    (fireNext cfg rand s).pending
      = [⟨t + randomLoopInterval cfg (rand s.randIdx), Cont.runFull⟩] ∧
    (fireNext cfg rand (fireNext cfg rand s)).history
      = s.history ++ [cfg.glitchSteps.getD 0 0] ∧
    (fireNext cfg rand (fireNext cfg rand s)).iconOpacity = cfg.glitchSteps.getD 0 0 ∧
    (fireNext cfg rand (fireNext cfg rand s)).currentStepInSequence = 1 := by
  have hs1 := fireNext_endOfBurst cfg rand s t hstep hpend
  obtain ⟨hlo, hhi⟩ := randomLoopInterval_mem cfg (rand s.randIdx) h0 h1 hp
  rw [hs1]
  refine ⟨rfl, hlo, hhi, rfl, ?_, ?_, ?_⟩ <;>
  · simp only [fireNext]
    simp only [runCont, runFullGlitchSequence, animateNextStep]
    first
    | (rw [dif_pos (by simpa using hn)]
       simp [List.getElem?_eq_getElem, hn])
    | simp [List.getElem?_eq_getElem, hn]

/-- Witness for C3: reference configuration at the end of a burst, pinned
random value 1/2. -/
theorem burst_restart_witness :
    (⟨2300, 5, 1, [6/10, 2/10, 8/10, 4/10, 1], [⟨2300, Cont.animate⟩], 0⟩ :
        AnimState).currentStepInSequence = referenceConfig.glitchSteps.length ∧
    (⟨2300, 5, 1, [6/10, 2/10, 8/10, 4/10, 1], [⟨2300, Cont.animate⟩], 0⟩ :
        AnimState).pending = [⟨2300, Cont.animate⟩] ∧
    0 < referenceConfig.glitchSteps.length ∧
    (0:ℚ) ≤ (fun _ => (1/2 : ℚ)) ((⟨2300, 5, 1, [6/10, 2/10, 8/10, 4/10, 1],
        [⟨2300, Cont.animate⟩], 0⟩ : AnimState).randIdx) ∧
    (fun _ => (1/2 : ℚ)) ((⟨2300, 5, 1, [6/10, 2/10, 8/10, 4/10, 1],
        [⟨2300, Cont.animate⟩], 0⟩ : AnimState).randIdx) < 1 ∧
    referenceConfig.minPause < referenceConfig.maxPause ∧
    ((fireNext referenceConfig (fun _ => (1/2 : ℚ))
        (⟨2300, 5, 1, [6/10, 2/10, 8/10, 4/10, 1], [⟨2300, Cont.animate⟩], 0⟩ :
          AnimState)).history
      = (⟨2300, 5, 1, [6/10, 2/10, 8/10, 4/10, 1], [⟨2300, Cont.animate⟩], 0⟩ :
          AnimState).history ∧
    referenceConfig.minPause ≤ randomLoopInterval referenceConfig
        ((fun _ => (1/2 : ℚ)) ((⟨2300, 5, 1, [6/10, 2/10, 8/10, 4/10, 1],
          [⟨2300, Cont.animate⟩], 0⟩ : AnimState).randIdx) : ℚ) ∧
    randomLoopInterval referenceConfig
        ((fun _ => (1/2 : ℚ)) ((⟨2300, 5, 1, [6/10, 2/10, 8/10, 4/10, 1],
          [⟨2300, Cont.animate⟩], 0⟩ : AnimState).randIdx) : ℚ)
      < referenceConfig.maxPause ∧
    (fireNext referenceConfig (fun _ => (1/2 : ℚ))
        (⟨2300, 5, 1, [6/10, 2/10, 8/10, 4/10, 1], [⟨2300, Cont.animate⟩], 0⟩ :
          AnimState)).pending
      = [⟨2300 + randomLoopInterval referenceConfig
            ((fun _ => (1/2 : ℚ)) ((⟨2300, 5, 1, [6/10, 2/10, 8/10, 4/10, 1],
              [⟨2300, Cont.animate⟩], 0⟩ : AnimState).randIdx) : ℚ), Cont.runFull⟩] ∧
    (fireNext referenceConfig (fun _ => (1/2 : ℚ)) (fireNext referenceConfig (fun _ => (1/2 : ℚ))
        (⟨2300, 5, 1, [6/10, 2/10, 8/10, 4/10, 1], [⟨2300, Cont.animate⟩], 0⟩ :
          AnimState))).history
      = (⟨2300, 5, 1, [6/10, 2/10, 8/10, 4/10, 1], [⟨2300, Cont.animate⟩], 0⟩ :
          AnimState).history ++ [referenceConfig.glitchSteps.getD 0 0] ∧
    (fireNext referenceConfig (fun _ => (1/2 : ℚ)) (fireNext referenceConfig (fun _ => (1/2 : ℚ))
        (⟨2300, 5, 1, [6/10, 2/10, 8/10, 4/10, 1], [⟨2300, Cont.animate⟩], 0⟩ :
          AnimState))).iconOpacity = referenceConfig.glitchSteps.getD 0 0 ∧
    (fireNext referenceConfig (fun _ => (1/2 : ℚ)) (fireNext referenceConfig (fun _ => (1/2 : ℚ))
        (⟨2300, 5, 1, [6/10, 2/10, 8/10, 4/10, 1], [⟨2300, Cont.animate⟩], 0⟩ :
          AnimState))).currentStepInSequence = 1) :=
  ⟨by norm_num [referenceConfig], rfl, by norm_num [referenceConfig], by norm_num,
    by norm_num, by norm_num [referenceConfig],
    burst_restart referenceConfig (fun _ => (1/2 : ℚ))
      (⟨2300, 5, 1, [6/10, 2/10, 8/10, 4/10, 1], [⟨2300, Cont.animate⟩], 0⟩ : AnimState)
      2300 (by norm_num [referenceConfig]) rfl (by norm_num [referenceConfig])
      (by norm_num) (by norm_num) (by norm_num [referenceConfig])⟩

/-- Each `animateNextStep` call schedules exactly one successor timer. -/
lemma animateNextStep_pending (cfg : Config) (rand : Nat → ℚ) (s : AnimState) :
    ∃ t, (animateNextStep cfg rand s).pending = s.pending ++ [t] := by
  unfold animateNextStep
  by_cases h : s.currentStepInSequence < cfg.glitchSteps.length
  · exact ⟨_, by rw [dif_pos h]⟩
  · exact ⟨_, by rw [dif_neg h]⟩

/-- Every timer callback schedules exactly one successor timer. -/
lemma runCont_pending (cfg : Config) (rand : Nat → ℚ) (c : Cont) (s : AnimState) :
    ∃ t, (runCont cfg rand c s).pending = s.pending ++ [t] := by
  cases c with
  | runFull =>
    obtain ⟨t, ht⟩ := animateNextStep_pending cfg rand { s with currentStepInSequence := 0 }
    exact ⟨t, by simpa [runCont, runFullGlitchSequence] using ht⟩
  | animate => exact animateNextStep_pending cfg rand s

/-- Firing preserves "at most one pending timer". -/
lemma fireNext_pending_le (cfg : Config) (rand : Nat → ℚ) (s : AnimState)
    (h : s.pending.length ≤ 1) :
    (fireNext cfg rand s).pending.length ≤ 1 := by
  cases hp : s.pending with
  | nil => simp [fireNext, hp, h]
  | cons t rest =>
    have hrest : rest = [] := by
      have h2 := h
      rw [hp] at h2
      simp only [List.length_cons] at h2
      exact List.eq_nil_of_length_eq_zero (by omega)
    obtain ⟨t2, ht2⟩ :=
      runCont_pending cfg rand t.cont { s with now := t.fireAt, pending := rest }
    simp only [fireNext, hp]
    rw [ht2]
    simp [hrest]

/-- Advancing time preserves "at most one pending timer". -/
lemma advanceTo_pending_le (cfg : Config) (rand : Nat → ℚ) (fuel : Nat)
    (target : ℚ) (s : AnimState) (h : s.pending.length ≤ 1) :
    (advanceTo cfg rand fuel target s).pending.length ≤ 1 := by
  induction fuel generalizing s with
  | zero => simpa [advanceTo] using h
  | succ fuel ih =>
    rw [advanceTo]
    match hp : s.pending with
    | [] => simp
    | t :: rest =>
      by_cases hdue : t.fireAt ≤ target
      · simpa [hdue] using ih (fireNext cfg rand s) (fireNext_pending_le cfg rand s h)
      · rw [hp] at h
        simpa [hdue] using h

/-- Every lifecycle action preserves "at most one pending timer". -/
lemma applyAct_pending_le (cfg : Config) (rand : Nat → ℚ) (a : Act) (s : AnimState)
    (h : s.pending.length ≤ 1) :
    (applyAct cfg rand a s).pending.length ≤ 1 := by
  cases a with
  | fire => exact fireNext_pending_le cfg rand s h
  | adv fuel t => exact advanceTo_pending_le cfg rand fuel t s h
  | halt => simp [applyAct, stop]

lemma runActs_pending_le (cfg : Config) (rand : Nat → ℚ) (acts : List Act) :
    ∀ s : AnimState, s.pending.length ≤ 1 →
      (runActs cfg rand acts s).pending.length ≤ 1 := by
  induction acts with
  | nil =>
    intro s h
    simpa [runActs] using h
  | cons a acts ih =>
    intro s h
    have := ih (applyAct cfg rand a s) (applyAct_pending_le cfg rand a s h)
    simpa [runActs] using this

/-- C7: starting from mount, along any sequence of timer fires, simulated
time advances and cleanups, at most one timer is ever pending — the
warm-up, burst-step and idle-wait timers never coexist (each callback
schedules at most one successor, see `runCont_pending`). -/
theorem single_pending_timer_invariant (cfg : Config) (rand : Nat → ℚ)
    (acts : List Act) :
    (runActs cfg rand acts (start cfg initState)).pending.length ≤ 1 :=
  runActs_pending_le cfg rand acts _ (by simp [start, initState])

/-- C4: the Responsive Scale Controller is a pure function of the viewport
width: scale 2.08 whenever `w ≤ 768` (boundary included), 2.6 otherwise;
in particular 500 ↦ 2.08, 1024 ↦ 2.6, 768 ↦ 2.08; and however the width
changes, the scale state after the initial check plus any resize events is
the recomputation at the most recent width. -/
theorem responsive_scale_mapping (wsmall wlarge w w0 : ℚ) (events : List ℚ)
    (hs : wsmall ≤ 768) (hl : 768 < wlarge) :
    handleResize wsmall = 208/100 ∧ handleResize wlarge = 26/10 ∧
    handleResize 500 = 208/100 ∧ handleResize 1024 = 26/10 ∧
    handleResize 768 = 208/100 ∧
    modelScaleAfter (events ++ [w]) w0 = handleResize w ∧
    modelScaleAfter [] w0 = handleResize w0 := by
  refine ⟨?_, ?_, ?_, ?_, ?_, ?_, ?_⟩
  · simp [handleResize, hs]
  · simp [handleResize, not_le.mpr hl]
  · norm_num [handleResize]
  · norm_num [handleResize]
  · norm_num [handleResize]
  · rw [modelScaleAfter, ← List.cons_append, List.foldl_append]
    simp
  · simp [modelScaleAfter]

/-- Witness for C4 at concrete widths. -/
theorem responsive_scale_mapping_witness :
    (700:ℚ) ≤ 768 ∧ (768:ℚ) < 800 ∧
    (handleResize 700 = 208/100 ∧ handleResize 800 = 26/10 ∧
    handleResize 500 = 208/100 ∧ handleResize 1024 = 26/10 ∧
    handleResize 768 = 208/100 ∧
    modelScaleAfter ([600, 900] ++ [1024]) 500 = handleResize 1024 ∧
    modelScaleAfter [] 500 = handleResize 500) :=
  ⟨by norm_num, by norm_num,
    responsive_scale_mapping 700 800 1024 500 [600, 900] (by norm_num) (by norm_num)⟩

/-- C5: for every random draw `r ∈ [0,1)`, the idle wait
`randomLoopInterval` lies in `[minPause, maxPause)` — `[1500, 2500)` in the
reference configuration, where it equals the affine map `1000*r + 1500` —
and the map is strictly monotone in `r` and onto `[minPause, maxPause)`,
i.e. it is the uniform (order-preserving affine) transport of `[0,1)` onto
the configured range. -/
theorem idle_wait_uniform_range (cfg : Config) (r r2 y : ℚ)
    (h0 : 0 ≤ r) (h1 : r < 1) (hp : cfg.minPause < cfg.maxPause)
    (hr2 : r < r2) (h12 : r2 < 1)
    (hy0 : cfg.minPause ≤ y) (hy1 : y < cfg.maxPause) :
    cfg.minPause ≤ randomLoopInterval cfg r ∧
    randomLoopInterval cfg r < cfg.maxPause ∧
    randomLoopInterval referenceConfig r = 1000 * r + 1500 ∧
    randomLoopInterval cfg r < randomLoopInterval cfg r2 ∧
    (∃ q, 0 ≤ q ∧ q < 1 ∧ randomLoopInterval cfg q = y) := by
  obtain ⟨hlo, hhi⟩ := randomLoopInterval_mem cfg r h0 h1 hp
  refine ⟨hlo, hhi, ?_, ?_, ?_⟩
  · unfold randomLoopInterval referenceConfig
    ring
  · unfold randomLoopInterval
    nlinarith
  · refine ⟨(y - cfg.minPause) / (cfg.maxPause - cfg.minPause), ?_, ?_, ?_⟩
    · exact div_nonneg (by linarith) (by linarith)
    · rw [div_lt_one (by linarith)]
      linarith
    · unfold randomLoopInterval
      rw [div_mul_cancel₀ _ (by linarith : cfg.maxPause - cfg.minPause ≠ 0)]
      ring

/-- Witness for C5: reference configuration, `r = 1/4`, `r2 = 1/2`,
target duration `y = 2000`. -/
theorem idle_wait_uniform_range_witness :
    (0:ℚ) ≤ 1/4 ∧ (1/4:ℚ) < 1 ∧ referenceConfig.minPause < referenceConfig.maxPause ∧
    (1/4:ℚ) < 1/2 ∧ (1/2:ℚ) < 1 ∧
    referenceConfig.minPause ≤ (2000:ℚ) ∧ (2000:ℚ) < referenceConfig.maxPause ∧
    (referenceConfig.minPause ≤ randomLoopInterval referenceConfig (1/4) ∧
    randomLoopInterval referenceConfig (1/4) < referenceConfig.maxPause ∧
    randomLoopInterval referenceConfig (1/4) = 1000 * (1/4) + 1500 ∧
    randomLoopInterval referenceConfig (1/4) < randomLoopInterval referenceConfig (1/2) ∧
    (∃ q, 0 ≤ q ∧ q < 1 ∧ randomLoopInterval referenceConfig q = 2000)) :=
  ⟨by norm_num, by norm_num, by norm_num [referenceConfig], by norm_num, by norm_num,
    by norm_num [referenceConfig], by norm_num [referenceConfig],
    idle_wait_uniform_range referenceConfig (1/4) (1/2) 2000 (by norm_num) (by norm_num)
      (by norm_num [referenceConfig]) (by norm_num) (by norm_num)
      (by norm_num [referenceConfig]) (by norm_num [referenceConfig])⟩

/-- C8: when the loaded asset holds no usable mesh, `Helmet` renders
nothing and emits the diagnostic (it is a total function, so it never
crashes); when at least one mesh is present, the first mesh in node order
is the one rendered. -/
theorem helmet_first_mesh_or_diagnostic (nodes pre rest : List (String × GLTFNode))
    (nm : String) (m : Mesh)
    (hnone : ∀ p ∈ nodes, p.2.isMesh = false)
    (hpre : ∀ p ∈ pre, p.2.isMesh = false) :
    Helmet nodes = RenderResult.nothing "No mesh found in elegant_g.glb" ∧
    Helmet (pre ++ (nm, GLTFNode.mesh m) :: rest) = RenderResult.rendered m := by
  constructor
  · rw [Helmet, findFirstMesh_eq_none nodes hnone]
  · rw [Helmet, findFirstMesh_append_mesh pre rest nm m hpre]

/-- Witness for C8: a mesh-free asset and an asset whose second node is
the first mesh. -/
theorem helmet_first_mesh_or_diagnostic_witness :
    (∀ p ∈ [("camera", GLTFNode.other)], (Prod.snd p).isMesh = false) ∧
    (∀ p ∈ [("light", GLTFNode.other)], (Prod.snd p).isMesh = false) ∧
    (Helmet [("camera", GLTFNode.other)]
        = RenderResult.nothing "No mesh found in elegant_g.glb" ∧
    Helmet ([("light", GLTFNode.other)] ++ ("g", GLTFNode.mesh ⟨7⟩) :: [("extra", GLTFNode.mesh ⟨9⟩)])
        = RenderResult.rendered ⟨7⟩) :=
  ⟨by simp [GLTFNode.isMesh], by simp [GLTFNode.isMesh],
    helmet_first_mesh_or_diagnostic [("camera", GLTFNode.other)]
      [("light", GLTFNode.other)] [("extra", GLTFNode.mesh ⟨9⟩)] "g" ⟨7⟩
      (by simp [GLTFNode.isMesh]) (by simp [GLTFNode.isMesh])⟩

/-- C9: the renderer's clear color reactively follows the background color
configuration with no caching: re-applying a single change writes exactly
that value, and after any sequence of changes the renderer holds exactly
the most recently set value (last write wins); with no change it keeps its
current value. -/
theorem bg_color_last_write_wins (r : Renderer) (cs : List Color) (c : Color) :
    (applyBgChanges r (cs ++ [c])).clearColor = c ∧
    applyBgChanges r [c] = setClearColor r c ∧
    (setClearColor r c).clearColor = c ∧
    applyBgChanges r [] = r := by
  refine ⟨?_, rfl, rfl, rfl⟩
  simp [applyBgChanges, List.foldl_append, setClearColor]

/-- C10 (implicit): the model scale starts at 2.6 and every recomputation
yields 2.08 or 2.6, so after any mount width and resize-event sequence the
scale observable by the Scene Composer is one of exactly those two
values. -/
theorem model_scale_two_values (w w0 : ℚ) (events : List ℚ) :
    initialModelScale = 26/10 ∧
    (handleResize w = 208/100 ∨ handleResize w = 26/10) ∧
    (modelScaleAfter events w0 = 208/100 ∨ modelScaleAfter events w0 = 26/10) := by
  refine ⟨rfl, handleResize_mem w, ?_⟩
  unfold modelScaleAfter
  exact foldl_handleResize_mem (w0 :: events) initialModelScale (Or.inr rfl)

end DitheringG
